import Mathlib

/-!
Verification of the Hypno presence / resonance / sacred-geometry core.

The definitions below are a shallow embedding of the synchronization logic in
src/js/firebase.js, src/js/connections.js and src/js/main.js:

* JS objects keyed by session id (Firebase snapshots, Map instances) become
  association lists in insertion order, since JS string-keyed objects and Maps
  iterate in insertion order.
* Machine timestamps (Date.now(), server timestamps) become Int.
* JS numbers used for 3D coordinates and seeds become Rat.
* Absent / null JS fields become Option values; the falsy-default idiom
  v || d becomes an explicit helper.
* Asynchronous store operations become pure functions from the values they
  read to the list of writes they perform plus their result.
-/

namespace Hypno

/-- A 3D coordinate, as stored in a session record (js position field). -/
structure Pos where
  x : Rat := 0
  y : Rat := 0
  z : Rat := 0
deriving Repr, DecidableEq

/-- One session record under users/sessionId (firebase.js connect userData,
plus the sacred-geometry fields written by the group operations).
Absent fields are none; resonatingWith absent is modelled as []. -/
structure UserData where
  nickname : String := "Anonymous Wanderer"
  note : String := ""
  intention : Option String := none
  emotion : Option String := none
  shape : Option String := none
  color : Option String := none
  position : Pos := {}
  connectedAt : Int := 0
  lastSeen : Option Int := none
  resonatingWith : List String := []
  sacredGeometryId : Option String := none
  sacredGeometryPending : Option Bool := none
  sacredGeometryInvite : Option String := none
  sacredGeometryInviteFrom : Option String := none
deriving Repr, DecidableEq

/-- One member entry inside a geometry record (firebase.js members map values).
A member with no pending field is active; pending := true mirrors the
pending: true flag written for invitees. -/
structure GeometryMember where
  joinedAt : Int := 0
  intention : Option String := none
  nickname : String := ""
  pending : Bool := false
deriving Repr, DecidableEq

/-- One sacred-geometry record under sacredGeometry/geometryId
(firebase.js createSacredGeometry geometryData). Members keep insertion
order, as JS object iteration over UUID keys does. -/
structure GeometryData where
  createdAt : Int := 0
  createdBy : String := ""
  creatorNickname : String := ""
  center : Pos := {}
  mainIntention : Option String := none
  totalMembersEver : Nat := 2
  members : List (String × GeometryMember) := []
  seed : Rat := 0
  active : Bool := true
deriving Repr, DecidableEq

/-- The JS idiom v || d for string fields: null/undefined and the empty
string both fall back to the default. -/
def jsOr (v : Option String) (d : String) : String :=
  match v with
  | none => d
  | some s => if s = "" then d else s

/-- Writes an operation can issue against the backing store. -/
inductive StoreWrite where
  | userSet (uid : String) (data : UserData)
  | userUpdateGeomRef (uid : String) (sacredGeometryId : Option String)
      (sacredGeometryPending : Option Bool)
  | userUpdateInvite (uid : String) (invite : Option String) (inviteFrom : Option String)
  | geometrySet (gid : String) (g : GeometryData)
  | geometryUpdateMainIntention (gid : String) (mainIntention : String)
  | onDisconnectRemoveUser (uid : String)
  | onDisconnectRemoveMember (gid : String) (uid : String)
deriving Repr, DecidableEq

/-! ## Stale sweep (firebase.js cleanupStaleUsers, lines 188-209) -/

/-- staleThreshold = Date.now() - 2 * 60 * 1000. -/
def staleThreshold (now : Int) : Int :=
  now - 2 * 60 * 1000

/-- Decision the sweep makes for one users entry: self is skipped, otherwise
lastSeen (defaulted to 0 when absent, the js userData.lastSeen || 0) is
compared against the threshold. -/
def isStale (now : Int) (selfId userId : String) (u : UserData) : Bool :=
  if userId = selfId then false
  else decide (u.lastSeen.getD 0 < staleThreshold now)

/-- cleanupStaleUsers: the ids the sweep removes from the users tree. -/
def cleanupStaleUsers (now : Int) (selfId : String)
    (users : List (String × UserData)) : List String :=
  (users.filter (fun p => isStale now selfId p.1 p.2)).map Prod.fst

/-! ## Presence feed dispatch (firebase.js setupListeners, lines 222-264) -/

/-- A raw child event from the users subtree. -/
inductive StoreEvent where
  | childAdded (id : String) (data : UserData)
  | childChanged (id : String) (data : UserData)
  | childRemoved (id : String)
deriving Repr, DecidableEq

/-- An event delivered to the feed subscriber. -/
inductive FeedEvent where
  | sessionAdded (id : String) (data : UserData)
  | sessionChanged (id : String) (data : UserData)
  | sessionRemoved (id : String)
deriving Repr, DecidableEq

/-- Session id carried by a delivered feed event. -/
def feedEventId : FeedEvent → String
  | .sessionAdded id _ => id
  | .sessionChanged id _ => id
  | .sessionRemoved id => id

/-- What setupListeners delivers for one store event: child_added returns
early when the key is the own session id; child_changed and child_removed
forward unconditionally. -/
def setupListenersDispatch (sessionId : String) : StoreEvent → Option FeedEvent
  | .childAdded id d => if id = sessionId then none else some (.sessionAdded id d)
  | .childChanged id d => some (.sessionChanged id d)
  | .childRemoved id => some (.sessionRemoved id)

/-! ## Capacity check and connect (firebase.js lines 101-167) -/

def MAX_CONNECTIONS : Nat := 100

/-- Result record of checkCapacity. -/
structure CapacityResult where
  canConnect : Bool
  currentCount : Nat
  maxCount : Nat
  message : Option String := none
  spotsRemaining : Option Nat := none
deriving Repr, DecidableEq

/-- checkCapacity: point-in-time child count versus MAX_CONNECTIONS. -/
def checkCapacity (count : Nat) : CapacityResult :=
  if count ≥ MAX_CONNECTIONS then
    { canConnect := false
      currentCount := count
      maxCount := MAX_CONNECTIONS
      message := some "The cosmic field is at capacity. Please try again soon." }
  else
    { canConnect := true
      currentCount := count
      maxCount := MAX_CONNECTIONS
      spotsRemaining := some (MAX_CONNECTIONS - count) }

/-- Shape/color data of one entry of the INTENTIONS catalog (config.js). -/
structure IntentionData where
  shape : String
  color : String
deriving Repr, DecidableEq

/-- The INTENTIONS catalog from config.js, restricted to the fields connect
reads (shape and color). -/
def INTENTIONS : List (String × IntentionData) :=
  [("observer", { shape := "orbit", color := "#FFFFFF" }),
   ("peace", { shape := "sphere", color := "#8B5CF6" }),
   ("love", { shape := "heart", color := "#EC4899" }),
   ("clarity", { shape := "octahedron", color := "#3B82F6" }),
   ("creativity", { shape := "star", color := "#F59E0B" }),
   ("transcendence", { shape := "spiral", color := "#10B981" }),
   ("transformation", { shape := "phoenix", color := "#EF4444" }),
   ("healing", { shape := "lotus", color := "#06B6D4" }),
   ("wisdom", { shape := "pyramid", color := "#A855F7" }),
   ("unity", { shape := "infinity", color := "#FBBF24" })]

/-- DEFAULT_USER from config.js (fields connect reads). -/
structure DefaultUser where
  nickname : String
  note : String
  intention : String
  emotion : String

def DEFAULT_USER : DefaultUser :=
  { nickname := "Anonymous Wanderer", note := "", intention := "observer"
    emotion := "neutral" }

/-- The initialData argument of connect. -/
structure InitialData where
  nickname : Option String := none
  note : Option String := none
  intention : Option String := none
  emotion : Option String := none
deriving Repr, DecidableEq

/-- INTENTIONS[key] lookup. -/
def lookupIntentionData (key : String) : Option IntentionData :=
  (INTENTIONS.find? (fun p => p.1 == key)).map Prod.snd

/-- INTENTIONS[intention] || INTENTIONS[DEFAULT_USER.intention]. -/
def resolveIntentionData (intention : String) : Option IntentionData :=
  (lookupIntentionData intention).orElse fun _ =>
    lookupIntentionData DEFAULT_USER.intention

/-- Outcome of connect: the thrown capacity error, or the userData written. -/
inductive ConnectResult where
  | capacityError (message : String)
  | connected (userData : UserData)
deriving Repr, DecidableEq

/-- connect(initialData): checks capacity first and throws without touching
the store when full; otherwise builds the session record, writes it under
users/sessionId and registers the onDisconnect removal. The point-in-time
session count, the random position and the server timestamp are parameters. -/
def connect (sessionId : String) (count : Nat) (initialData : InitialData)
    (pos : Pos) (now : Int) : List StoreWrite × ConnectResult :=
  let capacity := checkCapacity count
  if capacity.canConnect then
    let intention := jsOr initialData.intention DEFAULT_USER.intention
    let emotion := jsOr initialData.emotion DEFAULT_USER.emotion
    let intentionData := resolveIntentionData intention
    let userData : UserData :=
      { nickname := jsOr initialData.nickname DEFAULT_USER.nickname
        note := jsOr initialData.note DEFAULT_USER.note
        intention := some intention
        emotion := some emotion
        shape := intentionData.map IntentionData.shape
        color := intentionData.map IntentionData.color
        position := pos
        connectedAt := now
        lastSeen := some now
        resonatingWith := [] }
    ([.userSet sessionId userData, .onDisconnectRemoveUser sessionId],
     .connected userData)
  else
    ([], .capacityError (capacity.message.getD ""))

/-! ## Resonance set mutation (firebase.js addResonance, lines 325-337) -/

/-- addResonance(targetId) on the current resonatingWith array: push unless
already included. There is no check against the own session id. -/
def addResonance (current : List String) (targetId : String) : List String :=
  if current.contains targetId then current else current ++ [targetId]

/-- removeResonance(targetId): splice out the first occurrence if present. -/
def removeResonance (current : List String) (targetId : String) : List String :=
  current.eraseP (fun x => x == targetId)

/-! ## Group creation (firebase.js createSacredGeometry, lines 408-470, and
its caller main.js onCreateSacredGeometry, lines 201-225) -/

/-- createSacredGeometry(targetUserId): reads the caller's and the target's
session records; returns null with no write when either is missing, otherwise
writes the new geometry (caller active, target pending, mainIntention the
creator's), points the caller at it, writes the invite onto the target and
registers the creator's membership for disconnect removal. The fresh
geometry id, the random seed and the server timestamp are parameters. -/
def createSacredGeometry (sessionId : String) (selfData : Option UserData)
    (targetUserId : String) (targetData : Option UserData)
    (geometryId : String) (seed : Rat) (now : Int) :
    List StoreWrite × Option String :=
  match selfData, targetData with
  | some sd, some td =>
    let geometryData : GeometryData :=
      { createdAt := now
        createdBy := sessionId
        creatorNickname := sd.nickname
        center :=
          { x := (sd.position.x + td.position.x) / 2
            y := (sd.position.y + td.position.y) / 2
            z := (sd.position.z + td.position.z) / 2 }
        mainIntention := sd.intention
        totalMembersEver := 2
        members :=
          [(sessionId,
            { joinedAt := now, intention := sd.intention, nickname := sd.nickname }),
           (targetUserId,
            { joinedAt := now, intention := td.intention, nickname := td.nickname
              pending := true })]
        seed := seed
        active := true }
    ([.geometrySet geometryId geometryData,
      .userUpdateGeomRef sessionId (some geometryId) (some false),
      .userUpdateInvite targetUserId (some geometryId) (some sessionId),
      .onDisconnectRemoveMember geometryId sessionId],
     some geometryId)
  | _, _ => ([], none)

/-- Outcome of the onCreateSacredGeometry user action in main.js. -/
inductive CreateOutcome where
  | noTarget
  | alreadyInGroup (message : String)
  | storeResult (geometryId : Option String)
deriving Repr, DecidableEq

/-- onCreateSacredGeometry: returns early when no target is selected; aborts
with the already-in-group alert, before any store access, when the cached
self record carries a sacredGeometryId; otherwise runs createSacredGeometry. -/
def onCreateSacredGeometry (sessionId : String) (selfData : Option UserData)
    (selectedUserId : Option String) (targetData : Option UserData)
    (geometryId : String) (seed : Rat) (now : Int) :
    List StoreWrite × CreateOutcome :=
  match selectedUserId with
  | none => ([], .noTarget)
  | some targetUserId =>
    if (selfData.bind UserData.sacredGeometryId).isSome then
      ([], .alreadyInGroup
        "You are already in a Sacred Geometry. Leave it first to create a new one.")
    else
      let r := createSacredGeometry sessionId selfData targetUserId targetData
        geometryId seed now
      (r.1, .storeResult r.2)

/-! ## Resonance connection recomputation
(connections.js ConnectionManager.updateConnections, lines 18-57) -/

/-- Map.get on the session map (keys of a JS Map are unique; getAllUsers
builds it keyed by session id). -/
def findUser (allUsers : List (String × UserData)) (id : String) : Option UserData :=
  (allUsers.find? (fun p => p.1 == id)).map Prod.snd

/-- Lexicographic code-unit comparison on character lists, the comparison
the js default Array.sort applies to strings. -/
def charListLe : List Char → List Char → Bool
  | [], _ => true
  | _ :: _, [] => false
  | c :: cs, d :: ds =>
    if c.toNat < d.toNat then true
    else if d.toNat < c.toNat then false
    else charListLe cs ds

/-- The js string order used by [id1, id2].sort(). -/
def strLe (a b : String) : Bool :=
  charListLe a.data b.data

/-- getConnectionId sorts the two ids; the js code then joins the sorted pair
with a dash purely to obtain a Map key, so the sorted pair is the key's
content. -/
def getConnectionId (id1 id2 : String) : String × String :=
  if strLe id1 id2 then (id1, id2) else (id2, id1)

/-- The (connId, setMutual argument) writes one user's resonatingWith array
contributes during an updateConnections pass: a target absent from the
session set is skipped, every present target yields the canonical pair and
the mutuality test targetData.resonatingWith.includes(userId). -/
def userConnWrites (allUsers : List (String × UserData)) (u : String × UserData) :
    List ((String × String) × Bool) :=
  u.2.resonatingWith.filterMap fun targetId =>
    (findUser allUsers targetId).map fun targetData =>
      (getConnectionId u.1 targetId, targetData.resonatingWith.contains u.1)

def connWritesAux (allUsers : List (String × UserData)) :
    List (String × UserData) → List ((String × String) × Bool)
  | [] => []
  | u :: rest => userConnWrites allUsers u ++ connWritesAux allUsers rest

/-- All (connId, isMutual) writes of one updateConnections pass, in the order
the nested forEach loops issue them. -/
def connWrites (allUsers : List (String × UserData)) :
    List ((String × String) × Bool) :=
  connWritesAux allUsers allUsers

/-- One keyed store into the connections map: a later setMutual on the same
connId overwrites the earlier value. -/
def upsertConn (acc : List ((String × String) × Bool))
    (w : (String × String) × Bool) : List ((String × String) × Bool) :=
  if acc.any (fun p => p.1 == w.1) then
    acc.map (fun p => if p.1 == w.1 then w else p)
  else acc ++ [w]

/-- The connId -> isMutual contents of the connections map after one full
updateConnections pass: every key written this pass holds its last setMutual
value, and keys not in activeConnections are removed at the end of the pass,
so exactly the written keys survive. -/
def updateConnections (allUsers : List (String × UserData)) :
    List ((String × String) × Bool) :=
  (connWrites allUsers).foldl upsertConn []

/-- Concrete two-member session set with a mutual resonance pair, for the
C4 and C8 witnesses. -/
def resonanceUsersExample : List (String × UserData) :=
  [("alice", { resonatingWith := ["bob"] }),
   ("bob", { resonatingWith := ["alice"] })]

/-! ## Dominant intention recomputation
(firebase.js updateGeometryMainIntention, lines 503-531, run after
acceptSacredGeometryInvite and joinSacredGeometry) -/

/-- One step of the js tally intentionCounts[intention] =
(intentionCounts[intention] || 0) + 1: bump an existing key in place, or
append a fresh key with count 1 (JS string-keyed objects keep insertion
order, hence the association list). -/
def bumpCount (counts : List (String × Nat)) (key : String) : List (String × Nat) :=
  if counts.any (fun p => p.1 == key) then
    counts.map (fun p => if p.1 == key then (p.1, p.2 + 1) else p)
  else counts ++ [(key, 1)]

/-- The intention tally over a member list, each member contributing
member.intention || "observer". -/
def intentionCounts (members : List GeometryMember) : List (String × Nat) :=
  members.foldl (fun acc m => bumpCount acc (m.intention.getD "observer")) []

/-- One step of the js scan over Object.entries(intentionCounts): replace the
running best only on a strictly greater count. -/
def pickStep (best : String × Nat) (p : String × Nat) : String × Nat :=
  if p.2 > best.2 then p else best

/-- The scan for the most common intention, seeded with
geometryData.mainIntention || "observer" at count 0. -/
def pickMainIntention (prev : Option String) (counts : List (String × Nat)) : String :=
  (counts.foldl pickStep (prev.getD "observer", 0)).1

/-- Object.values(geometryData.members).filter(m => !m.pending). -/
def activeMembers (g : GeometryData) : List GeometryMember :=
  (g.members.map Prod.snd).filter (fun m => !m.pending)

/-- updateGeometryMainIntention: returns without a write when the geometry or
its members map is missing; otherwise tallies intentions over active members
and overwrites mainIntention with the scan result. -/
def updateGeometryMainIntention (geometry : Option GeometryData) : Option GeometryData :=
  match geometry with
  | none => none
  | some g =>
    if g.members.isEmpty then some g
    else
      some
        { g with
          mainIntention :=
            some (pickMainIntention g.mainIntention (intentionCounts (activeMembers g))) }

/-- Spec-side view of the tally: the largest count appearing in it. -/
def countsMax (counts : List (String × Nat)) : Nat :=
  counts.foldl (fun n p => max n p.2) 0

/-- Spec-side view of the scan result: the earliest-tallied tag whose count
equals the largest count. -/
def firstMaxIntention (counts : List (String × Nat)) : Option String :=
  (counts.find? (fun p => p.2 == countsMax counts)).map Prod.fst

/-- Concrete group for the C1 counterexample: previous dominant "peace",
active members tallied in the order love, love, peace, peace, so the counts
tie at 2:2 with "love" tallied first. -/
def c1Geometry : GeometryData :=
  { mainIntention := some "peace"
    members :=
      [("u1", { intention := some "love" }),
       ("u2", { intention := some "love" }),
       ("u3", { intention := some "peace" }),
       ("u4", { intention := some "peace" })] }

/-- Concrete group for the C1 amended-theorem witness. -/
def c1WitnessGeometry : GeometryData :=
  { mainIntention := some "peace"
    members := [("u1", { intention := some "love" })] }

/-! ## Leaving a group (firebase.js leaveSacredGeometry, lines 588-613) -/

/-- The members map after the caller's entry is removed. -/
def remainingMembers (sessionId : String)
    (members : List (String × GeometryMember)) : List (String × GeometryMember) :=
  members.filter (fun p => !(p.1 == sessionId))

/-- The active (non-pending) entries of a members map,
the js Object.values(members).filter(m => !m.pending). -/
def activeMemberEntries (members : List (String × GeometryMember)) :
    List (String × GeometryMember) :=
  members.filter (fun p => !p.2.pending)

/-- Result of leaveSacredGeometry: the surviving members map of the group
(none when the group record was deleted) and the caller's record. -/
structure LeaveOutcome where
  geometry : Option (List (String × GeometryMember))
  self : Option UserData
deriving Repr, DecidableEq

/-- leaveSacredGeometry(): no-op unless the cached self record exists and
carries a sacredGeometryId. Otherwise removes the caller's member entry,
re-reads the members, deletes the whole group when no active member remains,
and clears sacredGeometryId / sacredGeometryPending on the caller. -/
def leaveSacredGeometry (sessionId : String) (selfData : Option UserData)
    (members : List (String × GeometryMember)) : LeaveOutcome :=
  match selfData with
  | none => { geometry := some members, self := none }
  | some sd =>
    match sd.sacredGeometryId with
    | none => { geometry := some members, self := some sd }
    | some _ =>
      let remaining := remainingMembers sessionId members
      let activeRemaining := activeMemberEntries remaining
      { geometry := if activeRemaining.isEmpty then none else some remaining
        self := some { sd with sacredGeometryId := none, sacredGeometryPending := none } }

end Hypno

namespace Hypno

/-! ## Theorems -/

/-- C6: a non-self session whose lastSeen is 121 s old is removed by the
sweep, one whose lastSeen is 60 s old is not, and the sweeping client never
removes its own session, whatever its lastSeen. -/
theorem c6_stale_sweep (now : Int) (selfId userId : String) (h : userId ≠ selfId)
    (u v : UserData)
    (hu : u.lastSeen = some (now - 121 * 1000))
    (hv : v.lastSeen = some (now - 60 * 1000)) :
    isStale now selfId userId u = true ∧
    isStale now selfId userId v = false ∧
    (∀ users, (userId, u) ∈ users → userId ∈ cleanupStaleUsers now selfId users) ∧
    (∀ users w, (selfId, w) ∈ users → selfId ∉ cleanupStaleUsers now selfId users) := by
  have hstale : isStale now selfId userId u = true := by
    simp only [isStale, staleThreshold, if_neg h, hu, Option.getD_some,
      decide_eq_true_eq]
    omega
  refine ⟨hstale, ?_, ?_, ?_⟩
  · simp only [isStale, staleThreshold, if_neg h, hv, Option.getD_some,
      decide_eq_false_iff_not]
    omega
  · intro users hmem
    simp only [cleanupStaleUsers, List.mem_map]
    exact ⟨(userId, u), List.mem_filter.mpr ⟨hmem, hstale⟩, rfl⟩
  · intro users w _ hself
    simp only [cleanupStaleUsers, List.mem_map] at hself
    obtain ⟨p, hp, hfst⟩ := hself
    have := (List.mem_filter.mp hp).2
    rw [hfst] at this
    simp [isStale] at this

/-- Witness for c6_stale_sweep at a concrete sweep time and sessions. -/
theorem c6_stale_sweep_witness :
    isStale 1000000 "self" "other" { lastSeen := some (1000000 - 121 * 1000) } = true ∧
    isStale 1000000 "self" "other" { lastSeen := some (1000000 - 60 * 1000) } = false ∧
    (∀ users, ("other", ({ lastSeen := some (1000000 - 121 * 1000) } : UserData)) ∈ users →
      "other" ∈ cleanupStaleUsers 1000000 "self" users) ∧
    (∀ users w, ("self", w) ∈ users → "self" ∉ cleanupStaleUsers 1000000 "self" users) :=
  c6_stale_sweep 1000000 "self" "other" (by decide)
    { lastSeen := some (1000000 - 121 * 1000) }
    { lastSeen := some (1000000 - 60 * 1000) } rfl rfl

/-- C10: a non-self session record with no lastSeen field is treated as
lastSeen = 0 and removed by the next sweep (whenever the sweep time exceeds
the 120 s threshold, as any real clock value does). -/
theorem c10_missing_lastSeen_swept (now : Int) (selfId userId : String)
    (h : userId ≠ selfId) (u : UserData) (hu : u.lastSeen = none)
    (hnow : 120 * 1000 < now) :
    isStale now selfId userId u = true ∧
    (∀ users, (userId, u) ∈ users → userId ∈ cleanupStaleUsers now selfId users) := by
  have hstale : isStale now selfId userId u = true := by
    simp only [isStale, staleThreshold, if_neg h, hu, Option.getD_none,
      decide_eq_true_eq]
    omega
  refine ⟨hstale, fun users hmem => ?_⟩
  simp only [cleanupStaleUsers, List.mem_map]
  exact ⟨(userId, u), List.mem_filter.mpr ⟨hmem, hstale⟩, rfl⟩

/-- Witness for c10_missing_lastSeen_swept at a concrete input. -/
theorem c10_missing_lastSeen_swept_witness :
    isStale 1000000 "self" "other" { lastSeen := none } = true ∧
    (∀ users, ("other", ({ lastSeen := none } : UserData)) ∈ users →
      "other" ∈ cleanupStaleUsers 1000000 "self" users) :=
  c10_missing_lastSeen_swept 1000000 "self" "other" (by decide)
    { lastSeen := none } rfl (by decide)

/-- C2 fails on the code: only child_added filters the subscriber's own id;
a child_changed event for the own session is delivered as sessionChanged
with the subscriber's own id. -/
theorem c2_self_events_counterexample :
    ¬ (∀ (sessionId : String) (ev : StoreEvent) (fe : FeedEvent),
        setupListenersDispatch sessionId ev = some fe → feedEventId fe ≠ sessionId) := by
  intro hclaim
  exact hclaim "self" (.childChanged "self" {}) (.sessionChanged "self" {}) rfl rfl

/-- C2 amended: only the sessionAdded stream never carries the subscriber's
own session id; the dispatch of setupListeners filters self solely in the
child_added handler. -/
theorem c2_added_never_self (sessionId : String) (ev : StoreEvent)
    (id : String) (d : UserData)
    (h : setupListenersDispatch sessionId ev = some (.sessionAdded id d)) :
    id ≠ sessionId := by
  cases ev with
  | childAdded i dd =>
    by_cases hi : i = sessionId
    · simp [setupListenersDispatch, hi] at h
    · simp only [setupListenersDispatch, if_neg hi, Option.some.injEq,
        FeedEvent.sessionAdded.injEq] at h
      intro hid
      exact hi (h.1 ▸ hid)
  | childChanged i dd => simp [setupListenersDispatch] at h
  | childRemoved i => simp [setupListenersDispatch] at h

/-- Witness for c2_added_never_self: a child_added for another session is
delivered and its id differs from the subscriber's. -/
theorem c2_added_never_self_witness :
    setupListenersDispatch "self" (.childAdded "other" {}) =
      some (.sessionAdded "other" {}) ∧ ("other" : String) ≠ "self" :=
  ⟨rfl, c2_added_never_self "self" (.childAdded "other" {}) "other" {} rfl⟩

/-- C7: connect issues no write and fails with the capacity message whenever
the point-in-time session count read before writing is at least
MAX_CONNECTIONS = 100. -/
theorem c7_capacity_exceeded (sessionId : String) (count : Nat)
    (initialData : InitialData) (pos : Pos) (now : Int)
    (h : MAX_CONNECTIONS ≤ count) :
    connect sessionId count initialData pos now =
      ([], .capacityError "The cosmic field is at capacity. Please try again soon.") := by
  have hcap : checkCapacity count =
      { canConnect := false
        currentCount := count
        maxCount := MAX_CONNECTIONS
        message := some "The cosmic field is at capacity. Please try again soon." } := by
    simp [checkCapacity, h]
  simp [connect, hcap]

/-- Witness for c7_capacity_exceeded: the 101st connect against exactly 100
existing sessions fails with the capacity message and writes nothing. -/
theorem c7_capacity_exceeded_witness :
    connect "client101" 100 {} {} 0 =
      ([], .capacityError "The cosmic field is at capacity. Please try again soon.") :=
  c7_capacity_exceeded "client101" 100 {} {} 0 (by decide)

/-- C9 fails on the code: addResonance performs no self-check, so calling it
with the caller's own session id (here the session "self" resonating with
itself) does insert the own id into resonatingWith. -/
theorem c9_self_resonance_counterexample :
    addResonance [] "self" = ["self"] ∧ "self" ∈ addResonance [] "self" := by
  constructor
  · rfl
  · simp [addResonance]

theorem foldl_max_eq (l : List (String × Nat)) :
    ∀ a : Nat, l.foldl (fun n p => max n p.2) a = max a (countsMax l) := by
  induction l with
  | nil =>
    intro a
    simp [countsMax]
  | cons q rest ih =>
    intro a
    have hq : countsMax (q :: rest) = max q.2 (countsMax rest) := by
      simp only [countsMax, List.foldl_cons, Nat.zero_max]
      exact ih q.2
    simp only [List.foldl_cons, hq, ih (max a q.2)]
    exact max_assoc a q.2 (countsMax rest)

theorem countsMax_cons (p : String × Nat) (rest : List (String × Nat)) :
    countsMax (p :: rest) = max p.2 (countsMax rest) := by
  simp only [countsMax, List.foldl_cons, Nat.zero_max]
  exact foldl_max_eq rest p.2

theorem pick_foldl_of_le (counts : List (String × Nat)) :
    ∀ best : String × Nat, countsMax counts ≤ best.2 →
      counts.foldl pickStep best = best := by
  induction counts with
  | nil =>
    intro best _
    rfl
  | cons p rest ih =>
    intro best h
    rw [countsMax_cons, Nat.max_le] at h
    have hp : ¬ (p.2 > best.2) := by omega
    simp only [List.foldl_cons, pickStep, if_neg hp]
    exact ih best h.2

theorem find_firstMax_eq_foldl (counts : List (String × Nat)) :
    ∀ best : String × Nat, best.2 < countsMax counts →
      counts.find? (fun p => p.2 == countsMax counts) =
        some (counts.foldl pickStep best) := by
  induction counts with
  | nil =>
    intro best h
    simp [countsMax] at h
  | cons p rest ih =>
    intro best h
    by_cases hp : p.2 = countsMax (p :: rest)
    · rw [List.find?_cons_of_pos _ (by simpa using hp)]
      have hbest : p.2 > best.2 := by omega
      simp only [List.foldl_cons, pickStep, if_pos hbest]
      rw [pick_foldl_of_le rest p]
      rw [countsMax_cons] at hp
      exact max_eq_left_iff.mp hp.symm
    · have hmax : countsMax (p :: rest) = countsMax rest := by
        rw [countsMax_cons] at hp ⊢
        rcases max_choice p.2 (countsMax rest) with hc | hc
        · exact absurd hc.symm hp
        · exact hc
      rw [List.find?_cons_of_neg _ (by simpa using hp), hmax]
      have hple : p.2 ≤ countsMax (p :: rest) := by
        rw [countsMax_cons]
        exact Nat.le_max_left _ _
      have hstep : (pickStep best p).2 < countsMax rest := by
        simp only [pickStep]
        split <;> omega
      simpa only [List.foldl_cons] using ih (pickStep best p) hstep

theorem bumpCount_pos (acc : List (String × Nat)) (key : String) :
    ∃ p ∈ bumpCount acc key, 0 < p.2 := by
  by_cases h : acc.any (fun p => p.1 == key)
  · obtain ⟨q, hq, hqk⟩ := List.any_eq_true.mp h
    refine ⟨(q.1, q.2 + 1), ?_, Nat.succ_pos _⟩
    simp only [bumpCount, if_pos h]
    exact List.mem_map.mpr ⟨q, hq, by simp [hqk]⟩
  · exact ⟨(key, 1), by simp [bumpCount, if_neg h], Nat.one_pos⟩

theorem intentionCounts_foldl_pos (ms : List GeometryMember) :
    ∀ acc : List (String × Nat), ms ≠ [] →
      ∃ p ∈ ms.foldl (fun acc m => bumpCount acc (m.intention.getD "observer")) acc,
        0 < p.2 := by
  induction ms with
  | nil =>
    intro acc h
    exact absurd rfl h
  | cons m rest ih =>
    intro acc _
    simp only [List.foldl_cons]
    by_cases hrest : rest = []
    · subst hrest
      simpa using bumpCount_pos acc (m.intention.getD "observer")
    · exact ih _ hrest

theorem mem_le_countsMax (counts : List (String × Nat)) :
    ∀ p ∈ counts, p.2 ≤ countsMax counts := by
  induction counts with
  | nil =>
    intro p hp
    cases hp
  | cons q rest ih =>
    intro p hp
    rw [countsMax_cons]
    rcases List.mem_cons.mp hp with h | h
    · rw [h]
      exact Nat.le_max_left _ _
    · exact le_trans (ih p h) (Nat.le_max_right _ _)

theorem countsMax_pos_of_members (ms : List GeometryMember) (h : ms ≠ []) :
    0 < countsMax (intentionCounts ms) := by
  obtain ⟨p, hp, hpos⟩ := intentionCounts_foldl_pos ms [] h
  exact lt_of_lt_of_le hpos (mem_le_countsMax _ p hp)

/-- C1 fails on the code: with active-member counts tied at
love:2, peace:2 and previous dominant "peace", the recomputation yields
"love" (the first-tallied tied tag), not the previous value. -/
theorem c1_dominant_tie_counterexample :
    intentionCounts (activeMembers c1Geometry) = [("love", 2), ("peace", 2)] ∧
    c1Geometry.mainIntention = some "peace" ∧
    (updateGeometryMainIntention (some c1Geometry)).bind GeometryData.mainIntention =
      some "love" := by
  refine ⟨by decide, rfl, by decide⟩

/-- C1 amended: whenever the group has at least one active member, the
recomputation ignores the previous dominant entirely and returns the
earliest-tallied tag among those holding the maximal active-member count (so
a tie resolves to the first-tallied tied tag, not to the previous value; the
previous value survives only when no active member remains). -/
theorem c1_dominant_tie_amended (g : GeometryData) (h : activeMembers g ≠ []) :
    (updateGeometryMainIntention (some g)).bind GeometryData.mainIntention =
      firstMaxIntention (intentionCounts (activeMembers g)) := by
  have hmem : g.members.isEmpty = false := by
    cases hgm : g.members with
    | nil =>
      exfalso
      apply h
      simp [activeMembers, hgm]
    | cons a t =>
      rfl
  have hpos : 0 < countsMax (intentionCounts (activeMembers g)) :=
    countsMax_pos_of_members _ h
  have hfind := find_firstMax_eq_foldl (intentionCounts (activeMembers g))
    (g.mainIntention.getD "observer", 0) hpos
  simp only [updateGeometryMainIntention, hmem, Bool.false_eq_true, if_false,
    Option.bind_some, firstMaxIntention, hfind, Option.map_some']
  rfl

/-- Witness for c1_dominant_tie_amended at a concrete one-member group. -/
theorem c1_dominant_tie_amended_witness :
    activeMembers c1WitnessGeometry ≠ [] ∧
    (updateGeometryMainIntention (some c1WitnessGeometry)).bind GeometryData.mainIntention =
      firstMaxIntention (intentionCounts (activeMembers c1WitnessGeometry)) :=
  ⟨by decide, c1_dominant_tie_amended c1WitnessGeometry (by decide)⟩

/-- C3: when the caller's session already carries a group id, the create
user action aborts with the already-in-group message and issues no store
write at all. -/
theorem c3_create_already_in_group (sessionId : String) (sd : UserData)
    (gid : String) (hsd : sd.sacredGeometryId = some gid)
    (targetUserId : String) (targetData : Option UserData)
    (geometryId : String) (seed : Rat) (now : Int) :
    onCreateSacredGeometry sessionId (some sd) (some targetUserId) targetData
        geometryId seed now =
      ([], .alreadyInGroup
        "You are already in a Sacred Geometry. Leave it first to create a new one.") := by
  simp [onCreateSacredGeometry, hsd]

/-- Witness for c3_create_already_in_group at a concrete caller already in
group "g1". -/
theorem c3_create_already_in_group_witness :
    onCreateSacredGeometry "self" (some { sacredGeometryId := some "g1" })
        (some "other") none "g2" 0 0 =
      ([], .alreadyInGroup
        "You are already in a Sacred Geometry. Leave it first to create a new one.") :=
  c3_create_already_in_group "self" { sacredGeometryId := some "g1" } "g1" rfl
    "other" none "g2" 0 0

/-- C5: a leave by a caller who has a group id removes the caller's member
entry, deletes the group exactly when no active (non-pending) member
remains, and clears the caller's group fields in both cases. -/
theorem c5_leave_deletes_iff_empty (sessionId : String) (sd : UserData)
    (gid : String) (hsd : sd.sacredGeometryId = some gid)
    (members : List (String × GeometryMember)) :
    ((leaveSacredGeometry sessionId (some sd) members).geometry = none ↔
      activeMemberEntries (remainingMembers sessionId members) = []) ∧
    (activeMemberEntries (remainingMembers sessionId members) ≠ [] →
      (leaveSacredGeometry sessionId (some sd) members).geometry =
        some (remainingMembers sessionId members)) ∧
    (leaveSacredGeometry sessionId (some sd) members).self =
      some { sd with sacredGeometryId := none, sacredGeometryPending := none } := by
  refine ⟨?_, ?_, ?_⟩
  · simp only [leaveSacredGeometry, hsd]
    by_cases h : activeMemberEntries (remainingMembers sessionId members) = []
    · simp [h]
    · simp [h, List.isEmpty_iff]
  · intro h
    simp only [leaveSacredGeometry, hsd]
    simp [List.isEmpty_iff, h]
  · simp [leaveSacredGeometry, hsd]

/-- Witness for c5_leave_deletes_iff_empty: the caller leaves a group whose
only other member is still pending, so the group is deleted. -/
theorem c5_leave_deletes_iff_empty_witness :
    ((leaveSacredGeometry "self" (some { sacredGeometryId := some "g1" })
        [("self", {}), ("other", { pending := true })]).geometry = none ↔
      activeMemberEntries (remainingMembers "self"
        [("self", {}), ("other", { pending := true })]) = []) ∧
    (activeMemberEntries (remainingMembers "self"
        [("self", {}), ("other", { pending := true })]) ≠ [] →
      (leaveSacredGeometry "self" (some { sacredGeometryId := some "g1" })
        [("self", {}), ("other", { pending := true })]).geometry =
        some (remainingMembers "self" [("self", {}), ("other", { pending := true })])) ∧
    (leaveSacredGeometry "self" (some { sacredGeometryId := some "g1" })
        [("self", {}), ("other", { pending := true })]).self =
      some { ({ sacredGeometryId := some "g1" } : UserData) with
        sacredGeometryId := none, sacredGeometryPending := none } :=
  c5_leave_deletes_iff_empty "self" { sacredGeometryId := some "g1" } "g1" rfl
    [("self", {}), ("other", { pending := true })]

theorem mem_connWritesAux (allUsers : List (String × UserData))
    (l : List (String × UserData)) (w : (String × String) × Bool) :
    w ∈ connWritesAux allUsers l ↔ ∃ u ∈ l, w ∈ userConnWrites allUsers u := by
  induction l with
  | nil => simp [connWritesAux]
  | cons u rest ih => simp [connWritesAux, ih]

theorem mem_userConnWrites (allUsers : List (String × UserData))
    (u : String × UserData) (w : (String × String) × Bool) :
    w ∈ userConnWrites allUsers u ↔
      ∃ t ∈ u.2.resonatingWith, ∃ td, findUser allUsers t = some td ∧
        w = (getConnectionId u.1 t, td.resonatingWith.contains u.1) := by
  simp only [userConnWrites, List.mem_filterMap, Option.map_eq_some']
  constructor
  · rintro ⟨t, ht, td, htd, hw⟩
    exact ⟨t, ht, td, htd, hw.symm⟩
  · rintro ⟨t, ht, td, htd, hw⟩
    exact ⟨t, ht, td, htd, hw.symm⟩

theorem findUser_eq_of_mem (id : String) (d : UserData) :
    ∀ allUsers : List (String × UserData), (allUsers.map Prod.fst).Nodup →
      (id, d) ∈ allUsers → findUser allUsers id = some d := by
  intro allUsers
  induction allUsers with
  | nil =>
    intro _ hmem
    cases hmem
  | cons e rest ih =>
    intro hnd hmem
    simp only [List.map_cons, List.nodup_cons] at hnd
    rcases List.mem_cons.mp hmem with h | h
    · rw [← h]
      unfold findUser
      rw [List.find?_cons_of_pos _ (by simp)]
      rfl
    · have hid : id ∈ rest.map Prod.fst := List.mem_map.mpr ⟨(id, d), h, rfl⟩
      have hne : ¬ ((fun q : String × UserData => q.1 == id) e = true) := by
        simp only [beq_iff_eq]
        intro he
        exact hnd.1 (he ▸ hid)
      unfold findUser
      rw [List.find?_cons_of_neg (p := fun q => q.1 == id) (a := e) rest hne]
      exact ih hnd.2 h

theorem findUser_mem_keys (allUsers : List (String × UserData)) (id : String)
    (d : UserData) (h : findUser allUsers id = some d) :
    id ∈ allUsers.map Prod.fst := by
  unfold findUser at h
  obtain ⟨q, hq, _⟩ := Option.map_eq_some'.mp h
  have hpred := List.find?_some hq
  have hmem := List.mem_of_find?_eq_some hq
  exact List.mem_map.mpr ⟨q, hmem, by simpa using hpred⟩

theorem getConnectionId_cases (a b : String) :
    getConnectionId a b = (a, b) ∨ getConnectionId a b = (b, a) := by
  unfold getConnectionId
  split_ifs <;> simp

theorem getConnectionId_inj {x y a b : String}
    (h : getConnectionId x y = getConnectionId a b) :
    (x = a ∧ y = b) ∨ (x = b ∧ y = a) := by
  unfold getConnectionId at h
  split_ifs at h <;> simp only [Prod.mk.injEq] at h <;> tauto

theorem connWrites_value (allUsers : List (String × UserData))
    (hnd : (allUsers.map Prod.fst).Nodup) (a b : String) (da db : UserData)
    (ha : (a, da) ∈ allUsers) (hb : (b, db) ∈ allUsers)
    (w : (String × String) × Bool) (hw : w ∈ connWrites allUsers)
    (hkey : w.1 = getConnectionId a b) :
    (w.2 = true ↔ (b ∈ da.resonatingWith ∧ a ∈ db.resonatingWith)) := by
  obtain ⟨u, hu, hwu⟩ := (mem_connWritesAux allUsers allUsers w).mp hw
  obtain ⟨t, ht, td, htd, hweq⟩ := (mem_userConnWrites allUsers u w).mp hwu
  have hukey : findUser allUsers u.1 = some u.2 :=
    findUser_eq_of_mem u.1 u.2 allUsers hnd hu
  have hakey : findUser allUsers a = some da :=
    findUser_eq_of_mem a da allUsers hnd ha
  have hbkey : findUser allUsers b = some db :=
    findUser_eq_of_mem b db allUsers hnd hb
  have hkey2 : getConnectionId u.1 t = getConnectionId a b := by
    rw [hweq] at hkey
    exact hkey
  rcases getConnectionId_inj hkey2 with ⟨h1, h2⟩ | ⟨h1, h2⟩
  · have hu2 : u.2 = da := by
      rw [h1, hakey] at hukey
      exact (Option.some.inj hukey).symm
    have htd2 : td = db := by
      rw [h2, hbkey] at htd
      exact (Option.some.inj htd).symm
    have hbmem : b ∈ da.resonatingWith := by
      rw [← h2, ← hu2]
      exact ht
    rw [hweq, htd2, h1]
    constructor
    · intro hc
      exact ⟨hbmem, by simpa using hc⟩
    · rintro ⟨_, hc⟩
      simpa using hc
  · have hu2 : u.2 = db := by
      rw [h1, hbkey] at hukey
      exact (Option.some.inj hukey).symm
    have htd2 : td = da := by
      rw [h2, hakey] at htd
      exact (Option.some.inj htd).symm
    have hamem : a ∈ db.resonatingWith := by
      rw [← h2, ← hu2]
      exact ht
    rw [hweq, htd2, h1]
    constructor
    · intro hc
      exact ⟨by simpa using hc, hamem⟩
    · rintro ⟨hc, _⟩
      simpa using hc

theorem mem_upsertConn (acc : List ((String × String) × Bool))
    (w p : (String × String) × Bool) (hp : p ∈ upsertConn acc w) :
    p ∈ acc ∨ p = w := by
  unfold upsertConn at hp
  by_cases h : acc.any (fun q => q.1 == w.1)
  · rw [if_pos h] at hp
    obtain ⟨q, hq, hqe⟩ := List.mem_map.mp hp
    by_cases hqq : (q.1 == w.1) = true
    · rw [if_pos hqq] at hqe
      exact Or.inr hqe.symm
    · rw [if_neg hqq] at hqe
      exact Or.inl (hqe ▸ hq)
  · rw [if_neg h] at hp
    rcases List.mem_append.mp hp with h1 | h1
    · exact Or.inl h1
    · exact Or.inr (List.mem_singleton.mp h1)

theorem mem_foldl_upsert (ws : List ((String × String) × Bool)) :
    ∀ acc p, p ∈ ws.foldl upsertConn acc → p ∈ acc ∨ p ∈ ws := by
  induction ws with
  | nil =>
    intro acc p h
    exact Or.inl h
  | cons w rest ih =>
    intro acc p h
    simp only [List.foldl_cons] at h
    rcases ih (upsertConn acc w) p h with hacc | hrest
    · rcases mem_upsertConn acc w p hacc with h1 | h1
      · exact Or.inl h1
      · refine Or.inr ?_
        rw [h1]
        exact List.mem_cons_self w rest
    · exact Or.inr (List.mem_cons_of_mem w hrest)

/-- C4: an entry of the recomputed connections map keyed by the pair of two
sessions of the set carries mutual = true exactly when each of the two
sessions' resonatingWith contains the other; otherwise it is reported
one-directional. -/
theorem c4_mutual_iff (allUsers : List (String × UserData))
    (hnd : (allUsers.map Prod.fst).Nodup) (a b : String) (da db : UserData)
    (ha : (a, da) ∈ allUsers) (hb : (b, db) ∈ allUsers)
    (entry : (String × String) × Bool)
    (hentry : entry ∈ updateConnections allUsers)
    (hkey : entry.1 = getConnectionId a b) :
    (entry.2 = true ↔ (b ∈ da.resonatingWith ∧ a ∈ db.resonatingWith)) := by
  have hw : entry ∈ connWrites allUsers := by
    rcases mem_foldl_upsert (connWrites allUsers) [] entry hentry with h | h
    · cases h
    · exact h
  exact connWrites_value allUsers hnd a b da db ha hb entry hw hkey

/-- Witness for c4_mutual_iff: in the two-member example set where alice and
bob resonate with each other, the connection entry is reported mutual. -/
theorem c4_mutual_iff_witness :
    ((("alice", "bob"), true) ∈ updateConnections resonanceUsersExample) ∧
    (((("alice", "bob"), true) : (String × String) × Bool).2 = true ↔
      ("bob" ∈ (["bob"] : List String) ∧ "alice" ∈ (["alice"] : List String))) :=
  ⟨by decide,
   c4_mutual_iff resonanceUsersExample (by decide) "alice" "bob"
    { resonatingWith := ["bob"] } { resonatingWith := ["alice"] }
    (List.mem_cons_self _ _)
    (List.mem_cons_of_mem _ (List.mem_cons_self _ _))
    (("alice", "bob"), true) (by decide) (by decide)⟩

/-- C8: resonance recomputation never references a session id absent from the
provided set: every setMutual write and every surviving connections-map entry
is keyed by two ids present in the set (absent targets having been skipped
silently). -/
theorem c8_no_absent_ids (allUsers : List (String × UserData)) :
    (∀ w ∈ connWrites allUsers,
      w.1.1 ∈ allUsers.map Prod.fst ∧ w.1.2 ∈ allUsers.map Prod.fst) ∧
    (∀ w ∈ updateConnections allUsers,
      w.1.1 ∈ allUsers.map Prod.fst ∧ w.1.2 ∈ allUsers.map Prod.fst) := by
  have hwrites : ∀ w ∈ connWrites allUsers,
      w.1.1 ∈ allUsers.map Prod.fst ∧ w.1.2 ∈ allUsers.map Prod.fst := by
    intro w hw
    obtain ⟨u, hu, hwu⟩ := (mem_connWritesAux allUsers allUsers w).mp hw
    obtain ⟨t, ht, td, htd, hweq⟩ := (mem_userConnWrites allUsers u w).mp hwu
    have hu1 : u.1 ∈ allUsers.map Prod.fst := List.mem_map.mpr ⟨u, hu, rfl⟩
    have ht1 : t ∈ allUsers.map Prod.fst := findUser_mem_keys allUsers t td htd
    rcases getConnectionId_cases u.1 t with hc | hc <;> rw [hweq, hc] <;>
      exact ⟨by assumption, by assumption⟩
  refine ⟨hwrites, fun w hw => hwrites w ?_⟩
  rcases mem_foldl_upsert (connWrites allUsers) [] w hw with h | h
  · cases h
  · exact h

/-- Witness for c8_no_absent_ids: the write emitted for the alice-bob pair
references only ids present in the example set. -/
theorem c8_no_absent_ids_witness :
    ((("alice", "bob"), true) ∈ connWrites resonanceUsersExample) ∧
    (("alice" : String) ∈ resonanceUsersExample.map Prod.fst ∧
      ("bob" : String) ∈ resonanceUsersExample.map Prod.fst) :=
  ⟨by decide,
   (c8_no_absent_ids resonanceUsersExample).1 (("alice", "bob"), true) (by decide)⟩

/-- C9 amended: addResonance inserts exactly the ids already present plus the
given target, with no filtering of the caller's own id; the no-self invariant
is maintained only by callers never passing the own session id. -/
theorem c9_addResonance_membership (current : List String) (targetId x : String) :
    x ∈ addResonance current targetId ↔ (x ∈ current ∨ x = targetId) := by
  by_cases h : current.contains targetId
  · have hmem : targetId ∈ current := List.contains_iff_exists_mem_beq.mp h |>.elim
      (fun a ha => by
        obtain ⟨hmem, hbeq⟩ := ha
        exact (beq_iff_eq.mp hbeq) ▸ hmem)
    simp only [addResonance, if_pos h]
    constructor
    · exact Or.inl
    · rintro (hx | hx)
      · exact hx
      · exact hx ▸ hmem
  · simp only [addResonance, if_neg h, List.mem_append, List.mem_singleton]

end Hypno
